import Mathlib

/-
Verification of the stream-readiness waiter `until_stream_is_ready` from
`Machine-Learning-in-Production/Reference/03-Streaming-Deployment.py`:

    def until_stream_is_ready(name, progressions=3):
        queries = list(filter(lambda query: query.name == name, spark.streams.active))
        while (len(queries) == 0 or len(queries[0].recentProgress) < progressions):
            time.sleep(5)
            queries = list(filter(lambda query: query.name == name, spark.streams.active))
        print(f"The stream ... is active and ready.")

The external engine is modelled by a snapshot trace `env : Nat → List
StreamingQuery`: `env k` is the value of `spark.streams.active` read at the
k-th poll (poll 0 is the read before the loop).  The unbounded Python loop
is run with explicit fuel; `none` means the loop was still waiting when the
fuel ran out.  A successful run produces the list of observable events it
performed (sleeps and printed lines), in order.
-/

/-- A streaming query as the engine exposes it: a name and the list of
progress reports recorded so far (`recentProgress`).  Only the length of
the list matters to the waiter; the entries are report identifiers. -/
structure StreamingQuery where
  name : String
  recentProgress : List Nat
deriving DecidableEq, Repr

/-- An observable event of the waiter: sleeping for a number of seconds
(`time.sleep`), or printing one line. -/
inductive WaitEvent where
  | sleep (seconds : Nat)
  | emit (line : String)
deriving DecidableEq, Repr

/-- The confirmation line the waiter prints on success. -/
def readyMessage (name : String) : String :=
  "The stream " ++ name ++ " is active and ready."

/-- The assignment `queries = list(filter(lambda query: query.name == name,
spark.streams.active))` applied to one snapshot of the active-job set. -/
def filteredQueries (name : String) (active : List StreamingQuery) : List StreamingQuery :=
  active.filter (fun query => query.name == name)

/-- The loop condition
`len(queries) == 0 or len(queries[0].recentProgress) < progressions`.
Python's `or` short-circuits, so `queries[0]` is read only when the filtered
list is nonempty; `progressions` is a Python int, so the comparison is over
the integers. -/
def loopContinues (name : String) (progressions : Int) (active : List StreamingQuery) : Bool :=
  match filteredQueries name active with
  | [] => true
  | query :: _ => decide ((query.recentProgress.length : Int) < progressions)

/-- The polling loop, started at poll index `k` with `fuel` polls allowed.
Each iteration reads the fresh snapshot `env k`, re-evaluates the loop
condition on it, and either sleeps 5 seconds and re-polls, or exits the
loop and prints the confirmation line. -/
def runFrom (env : Nat → List StreamingQuery) (name : String) (progressions : Int) :
    Nat → Nat → Option (List WaitEvent)
  | 0, _ => none
  | fuel + 1, k =>
    if loopContinues name progressions (env k) then
      (runFrom env name progressions fuel (k + 1)).map
        (fun events => WaitEvent.sleep 5 :: events)
    else
      some [WaitEvent.emit (readyMessage name)]

/-- `until_stream_is_ready(name, progressions)` run against the snapshot
trace `env`, with `fuel` polls allowed. -/
def until_stream_is_ready (env : Nat → List StreamingQuery) (name : String)
    (progressions : Int) (fuel : Nat) : Option (List WaitEvent) :=
  runFrom env name progressions fuel 0

/-- `until_stream_is_ready(name)` with `progressions` left to its default:
the source's signature is `def until_stream_is_ready(name, progressions=3)`. -/
def until_stream_is_ready_default (env : Nat → List StreamingQuery) (name : String)
    (fuel : Nat) : Option (List WaitEvent) :=
  until_stream_is_ready env name 3 fuel

/-- The lines printed during a run, in order. -/
def emittedLines (events : List WaitEvent) : List String :=
  events.filterMap (fun event =>
    match event with
    | WaitEvent.emit line => some line
    | WaitEvent.sleep _ => none)

/-- The loop exits exactly when the filtered set is nonempty and its first
element has at least `progressions` recorded progress reports. -/
theorem loopContinues_eq_false_iff (name : String) (p : Int) (active : List StreamingQuery) :
    loopContinues name p active = false ↔
      ∃ q qs, filteredQueries name active = q :: qs ∧
        p ≤ (q.recentProgress.length : Int) := by
  unfold loopContinues
  cases h : filteredQueries name active with
  | nil => simp [h]
  | cons q qs =>
    simp only [h, decide_eq_false_iff_not, not_lt]
    constructor
    · intro hle
      exact ⟨q, qs, rfl, hle⟩
    · rintro ⟨q', qs', hq, hle⟩
      cases hq
      exact hle

/-- The loop keeps waiting exactly when the filtered set is empty or its
first element has fewer than `progressions` recorded progress reports. -/
theorem loopContinues_eq_true_iff (name : String) (p : Int) (active : List StreamingQuery) :
    loopContinues name p active = true ↔
      filteredQueries name active = [] ∨
        ∃ q qs, filteredQueries name active = q :: qs ∧
          (q.recentProgress.length : Int) < p := by
  unfold loopContinues
  cases h : filteredQueries name active with
  | nil => simp [h]
  | cons q qs =>
    simp only [h, decide_eq_true_eq]
    constructor
    · intro hlt
      exact Or.inr ⟨q, qs, rfl, hlt⟩
    · rintro (hnil | ⟨q', qs', hq, hlt⟩)
      · exact absurd hnil (by simp)
      · cases hq
        exact hlt

/-- Characterisation of a successful run started at poll `k`: it returns
with trace `events` exactly when some poll `j` within the fuel is the first
poll (from `k` on) at which the loop condition fails, having slept 5 seconds
between each pair of consecutive polls and printed the confirmation line at
the end. -/
theorem runFrom_eq_some_iff (env : Nat → List StreamingQuery) (name : String) (p : Int) :
    ∀ (fuel k : Nat) (events : List WaitEvent),
    runFrom env name p fuel k = some events ↔
      ∃ j, k ≤ j ∧ j < k + fuel ∧
        loopContinues name p (env j) = false ∧
        (∀ i, k ≤ i → i < j → loopContinues name p (env i) = true) ∧
        events = List.replicate (j - k) (WaitEvent.sleep 5) ++
          [WaitEvent.emit (readyMessage name)] := by
  intro fuel
  induction fuel with
  | zero =>
    intro k events
    simp only [runFrom]
    constructor
    · intro h
      exact absurd h (by simp)
    · rintro ⟨j, h1, h2, -⟩
      omega
  | succ fuel ih =>
    intro k events
    simp only [runFrom]
    by_cases h : loopContinues name p (env k) = true
    · rw [if_pos h]
      constructor
      · intro hmap
        obtain ⟨events', hrun, hev⟩ := Option.map_eq_some'.mp hmap
        obtain ⟨j, hj1, hj2, hj3, hj4, hj5⟩ := (ih (k + 1) events').mp hrun
        refine ⟨j, by omega, by omega, hj3, ?_, ?_⟩
        · intro i hi1 hi2
          rcases Nat.eq_or_lt_of_le hi1 with heq | hlt
          · exact heq ▸ h
          · exact hj4 i hlt hi2
        · subst hev
          subst hj5
          have : j - k = (j - (k + 1)) + 1 := by omega
          rw [this, List.replicate_succ, List.cons_append]
      · rintro ⟨j, hj1, hj2, hj3, hj4, hj5⟩
        have hkj : k < j := by
          rcases Nat.eq_or_lt_of_le hj1 with heq | hlt
          · exact absurd (heq ▸ hj3) (by simp [h])
          · exact hlt
        have hrun : runFrom env name p fuel (k + 1) =
            some (List.replicate (j - (k + 1)) (WaitEvent.sleep 5) ++
              [WaitEvent.emit (readyMessage name)]) := by
          exact (ih (k + 1) _).mpr
            ⟨j, by omega, by omega, hj3, fun i hi1 hi2 => hj4 i (by omega) hi2, rfl⟩
        rw [hrun]
        subst hj5
        have : j - k = (j - (k + 1)) + 1 := by omega
        rw [this, List.replicate_succ, List.cons_append]
        rfl
    · rw [if_neg h]
      have hfalse : loopContinues name p (env k) = false := by
        simpa using h
      constructor
      · intro hsome
        refine ⟨k, le_refl k, by omega, hfalse, ?_, ?_⟩
        · intro i hi1 hi2
          omega
        · cases hsome
          simp
      · rintro ⟨j, hj1, hj2, hj3, hj4, hj5⟩
        have hjk : j = k := by
          by_contra hne
          have : loopContinues name p (env k) = true :=
            hj4 k (le_refl k) (by omega)
          simp [this] at hfalse
        subst hjk
        subst hj5
        simp

/-- A run keeps going forever (returns within no fuel bound) when the loop
condition holds at every poll. -/
theorem runFrom_eq_none_of_continues (env : Nat → List StreamingQuery) (name : String)
    (p : Int) (h : ∀ k, loopContinues name p (env k) = true) :
    ∀ fuel k, runFrom env name p fuel k = none := by
  intro fuel
  induction fuel with
  | zero => intro k; rfl
  | succ fuel ih =>
    intro k
    simp only [runFrom, h k, if_pos, ih (k + 1), Option.map_none']

/-- A constant snapshot trace holding two jobs that share the name
"job-A": the one enumerated first has no progress reports, the second has
three. -/
def dupEnv : Nat → List StreamingQuery :=
  fun _ => [⟨"job-A", []⟩, ⟨"job-A", [1, 2, 3]⟩]

/-- Claim C1, counterexample.  Every snapshot of `dupEnv` contains a job
named "job-A" with at least 3 progress reports, so by the claim the call
with threshold 3 returns at the very first poll; but the first enumerated
match has 0 reports, and the code is still waiting after 10 polls. -/
theorem c1_counterexample :
    (⟨"job-A", [1, 2, 3]⟩ : StreamingQuery) ∈ dupEnv 0 ∧
      (⟨"job-A", [1, 2, 3]⟩ : StreamingQuery).name = "job-A" ∧
      (3 : Int) ≤ ((⟨"job-A", [1, 2, 3]⟩ : StreamingQuery).recentProgress.length : Int) ∧
      until_stream_is_ready dupEnv "job-A" 3 10 = none := by
  refine ⟨by decide, by decide, by decide, ?_⟩
  decide

/-- A run from poll 0 succeeds exactly when some poll within the fuel is
the first whose filtered set is nonempty with its head at or above the
threshold. -/
theorem runFrom_zero_iff_first_match (env : Nat → List StreamingQuery)
    (name : String) (p : Int) (fuel : Nat) (events : List WaitEvent) :
    runFrom env name p fuel 0 = some events ↔
      ∃ j, j < fuel ∧
        (∃ q qs, filteredQueries name (env j) = q :: qs ∧
          p ≤ (q.recentProgress.length : Int)) ∧
        (∀ i, i < j →
          filteredQueries name (env i) = [] ∨
            ∃ q qs, filteredQueries name (env i) = q :: qs ∧
              (q.recentProgress.length : Int) < p) ∧
        events = List.replicate j (WaitEvent.sleep 5) ++
          [WaitEvent.emit (readyMessage name)] := by
  rw [runFrom_eq_some_iff]
  constructor
  · rintro ⟨j, -, hj2, hj3, hj4, hj5⟩
    refine ⟨j, by omega, (loopContinues_eq_false_iff name p (env j)).mp hj3, ?_, by simpa using hj5⟩
    intro i hi
    exact (loopContinues_eq_true_iff name p (env i)).mp (hj4 i (Nat.zero_le i) hi)
  · rintro ⟨j, hj1, hj2, hj3, hj4⟩
    exact ⟨j, Nat.zero_le j, by omega,
      (loopContinues_eq_false_iff name p (env j)).mpr hj2,
      fun i _ hi => (loopContinues_eq_true_iff name p (env i)).mpr (hj3 i hi),
      by simpa using hj4⟩

/-- Claim C1, amended: the call returns exactly when some observed snapshot
has its FIRST enumerated job with the given name carrying at least
`progressions` progress reports; while the matching set is empty or that
first match's count is below `progressions`, it waits and retries; the last
observed snapshot at the return shows at least `progressions` reports for
that first match. -/
theorem c1_returns_iff_first_match_ready (env : Nat → List StreamingQuery)
    (name : String) (p : Int) (fuel : Nat) (events : List WaitEvent) :
    until_stream_is_ready env name p fuel = some events ↔
      ∃ j, j < fuel ∧
        (∃ q qs, filteredQueries name (env j) = q :: qs ∧
          p ≤ (q.recentProgress.length : Int)) ∧
        (∀ i, i < j →
          filteredQueries name (env i) = [] ∨
            ∃ q qs, filteredQueries name (env i) = q :: qs ∧
              (q.recentProgress.length : Int) < p) ∧
        events = List.replicate j (WaitEvent.sleep 5) ++
          [WaitEvent.emit (readyMessage name)] := by
  unfold until_stream_is_ready
  exact runFrom_zero_iff_first_match env name p fuel events

/-- Claim C3: if no snapshot ever contains a job with the given name, the
call never returns, whatever fuel it is given: there is no timeout, no
retry bound and no error value, only indefinite waiting. -/
theorem c3_never_returns (env : Nat → List StreamingQuery) (name : String) (p : Int)
    (h : ∀ k, filteredQueries name (env k) = []) (fuel : Nat) :
    until_stream_is_ready env name p fuel = none := by
  apply runFrom_eq_none_of_continues
  intro k
  exact (loopContinues_eq_true_iff name p (env k)).mpr (Or.inl (h k))

/-- A constant snapshot trace in which only a differently named job is
active. -/
def absentEnv : Nat → List StreamingQuery :=
  fun _ => [⟨"other-job", [1, 2, 3, 4]⟩]

/-- Claim C3, witness: with "job-A" never active the call is still pending
after 100 polls. -/
theorem c3_witness : until_stream_is_ready absentEnv "job-A" 3 100 = none :=
  c3_never_returns absentEnv "job-A" 3
    (fun _ => show filteredQueries "job-A" [⟨"other-job", [1, 2, 3, 4]⟩] = [] by decide) 100

/-- Claim C4: when the very first snapshot already satisfies the threshold
for the first matching job, the call returns at poll 0 with a trace holding
no sleep event at all, only the confirmation line. -/
theorem c4_immediate_return (env : Nat → List StreamingQuery) (name : String)
    (p : Int) (fuel : Nat)
    (h : ∃ q qs, filteredQueries name (env 0) = q :: qs ∧
      p ≤ (q.recentProgress.length : Int)) :
    until_stream_is_ready env name p (fuel + 1) =
      some [WaitEvent.emit (readyMessage name)] := by
  have hf : loopContinues name p (env 0) = false :=
    (loopContinues_eq_false_iff name p (env 0)).mpr h
  unfold until_stream_is_ready
  simp [runFrom, hf]

/-- A constant snapshot trace with a single already ready job. -/
def readyEnv : Nat → List StreamingQuery :=
  fun _ => [⟨"job-A", [1, 2, 3]⟩]

/-- Claim C4, witness: the already ready job makes the call return with
zero sleeps on one unit of fuel. -/
theorem c4_witness :
    until_stream_is_ready readyEnv "job-A" 3 1 =
      some [WaitEvent.emit (readyMessage "job-A")] :=
  c4_immediate_return readyEnv "job-A" 3 0
    ⟨⟨"job-A", [1, 2, 3]⟩, [], by decide, by decide⟩

/-- Claim C2: when a job with the given name is the first match at every
poll and its progress-report count `c` grows monotonically, the call
returns exactly at the first poll `k` at which the count reaches the
threshold, never earlier: the trace records exactly `k` sleeps before the
confirmation line. -/
theorem c2_monotone_first_threshold (env : Nat → List StreamingQuery) (name : String)
    (p : Int) (c : Nat → Nat) (k fuel : Nat)
    (hq : ∀ j, ∃ q qs, filteredQueries name (env j) = q :: qs ∧
      q.recentProgress.length = c j)
    (_hmono : ∀ i j, i ≤ j → c i ≤ c j)
    (hk : p ≤ (c k : Int))
    (hfirst : ∀ i, i < k → (c i : Int) < p)
    (hfuel : k < fuel) :
    until_stream_is_ready env name p fuel =
      some (List.replicate k (WaitEvent.sleep 5) ++
        [WaitEvent.emit (readyMessage name)]) := by
  unfold until_stream_is_ready
  rw [runFrom_eq_some_iff]
  refine ⟨k, Nat.zero_le k, by omega, ?_, ?_, by simp⟩
  · obtain ⟨q, qs, hfil, hlen⟩ := hq k
    exact (loopContinues_eq_false_iff name p (env k)).mpr
      ⟨q, qs, hfil, by rw [hlen]; exact hk⟩
  · intro i _ hik
    obtain ⟨q, qs, hfil, hlen⟩ := hq i
    exact (loopContinues_eq_true_iff name p (env i)).mpr
      (Or.inr ⟨q, qs, hfil, by rw [hlen]; exact hfirst i hik⟩)

/-- A snapshot trace whose single job "job-A" reports counts
0, 1, 2, 3, 3, 3, ... at polls 0, 1, 2, 3, ... -/
def monoEnv : Nat → List StreamingQuery :=
  fun j => [⟨"job-A", List.range (min j 3)⟩]

/-- Claim C2, witness: with threshold 3 and counts 0, 1, 2, 3 at polls
0 to 3, the call returns only after the fourth poll, having slept three
times. -/
theorem c2_witness :
    until_stream_is_ready monoEnv "job-A" 3 4 =
      some (List.replicate 3 (WaitEvent.sleep 5) ++
        [WaitEvent.emit (readyMessage "job-A")]) := by
  apply c2_monotone_first_threshold monoEnv "job-A" 3 (fun j => min j 3) 3 4
  · intro j
    refine ⟨⟨"job-A", List.range (min j 3)⟩, [], ?_, by simp⟩
    show filteredQueries "job-A" [⟨"job-A", List.range (min j 3)⟩] = _
    simp [filteredQueries]
  · intro i j hij
    exact min_le_min hij (le_refl 3)
  · norm_num
  · intro i hi
    omega
  · omega

/-- Claim C5: when a job with the given name is the first enumerated match
at every poll (`rest` holds the other, unconstrained matches, which may
share the name), the call returns exactly at the first poll at which THAT
first match reaches the threshold, regardless of the counts of the other
matches. -/
theorem c5_first_of_duplicates (env : Nat → List StreamingQuery) (name : String)
    (p : Int) (q : Nat → StreamingQuery) (rest : Nat → List StreamingQuery)
    (h : ∀ k, filteredQueries name (env k) = q k :: rest k)
    (fuel : Nat) (events : List WaitEvent) :
    until_stream_is_ready env name p fuel = some events ↔
      ∃ j, j < fuel ∧ p ≤ ((q j).recentProgress.length : Int) ∧
        (∀ i, i < j → ((q i).recentProgress.length : Int) < p) ∧
        events = List.replicate j (WaitEvent.sleep 5) ++
          [WaitEvent.emit (readyMessage name)] := by
  unfold until_stream_is_ready
  rw [runFrom_eq_some_iff]
  constructor
  · rintro ⟨j, -, hj2, hj3, hj4, hj5⟩
    obtain ⟨q', qs', hfil, hle⟩ := (loopContinues_eq_false_iff name p (env j)).mp hj3
    rw [h j] at hfil
    injection hfil with h1 h2
    refine ⟨j, by omega, h1 ▸ hle, ?_, by simpa using hj5⟩
    intro i hij
    rcases (loopContinues_eq_true_iff name p (env i)).mp
        (hj4 i (Nat.zero_le i) hij) with hnil | ⟨q', qs', hfil', hlt⟩
    · rw [h i] at hnil
      exact absurd hnil (by simp)
    · rw [h i] at hfil'
      injection hfil' with h1' h2'
      exact h1' ▸ hlt
  · rintro ⟨j, hj1, hj2, hj3, hj4⟩
    exact ⟨j, Nat.zero_le j, by omega,
      (loopContinues_eq_false_iff name p (env j)).mpr ⟨q j, rest j, h j, hj2⟩,
      fun i _ hij => (loopContinues_eq_true_iff name p (env i)).mpr
        (Or.inr ⟨q i, rest i, h i, hj3 i hij⟩),
      by simpa using hj4⟩

/-- A constant snapshot trace with two jobs named "job-A": the first
enumerated one is ready (3 reports), the second has none. -/
def dupReadyEnv : Nat → List StreamingQuery :=
  fun _ => [⟨"job-A", [1, 2, 3]⟩, ⟨"job-A", []⟩]

/-- Claim C5, witness: with two same-named jobs whose first enumerated one
is ready, the call returns at once, ignoring the other job's empty log. -/
theorem c5_witness :
    until_stream_is_ready dupReadyEnv "job-A" 3 1 =
      some [WaitEvent.emit (readyMessage "job-A")] := by
  refine (c5_first_of_duplicates dupReadyEnv "job-A" 3
    (fun _ => ⟨"job-A", [1, 2, 3]⟩) (fun _ => [⟨"job-A", []⟩])
    (fun _ => show filteredQueries "job-A" [⟨"job-A", [1, 2, 3]⟩, ⟨"job-A", []⟩] =
      ⟨"job-A", [1, 2, 3]⟩ :: [⟨"job-A", []⟩] by decide)
    1 [WaitEvent.emit (readyMessage "job-A")]).mpr
    ⟨0, by omega, by decide, ?_, by simp⟩
  intro i hi
  exact absurd hi (Nat.not_lt_zero i)

/-- Claim C6: the loop's decision from poll `k` onward is a function of the
snapshots from poll `k` onward only — no length observed at an earlier poll
is cached.  Replacing every snapshot before poll `k` changes nothing, so
each comparison is against the latest observed progress-log length, even
when it is smaller than a previously observed one. -/
theorem c6_latest_snapshot_only (env env' : Nat → List StreamingQuery)
    (name : String) (p : Int) :
    ∀ fuel k, (∀ j, k ≤ j → env j = env' j) →
      runFrom env name p fuel k = runFrom env' name p fuel k := by
  intro fuel
  induction fuel with
  | zero => intro k h; rfl
  | succ fuel ih =>
    intro k h
    simp only [runFrom]
    rw [h k (le_refl k), ih (k + 1) (fun j hj => h j (by omega))]

/-- A trace whose "job-A" log length drops from 9 at poll 0 to 1 afterwards. -/
def decayEnv : Nat → List StreamingQuery
  | 0 => [⟨"job-A", List.range 9⟩]
  | _ + 1 => [⟨"job-A", List.range 1⟩]

/-- The same trace with the poll-0 log emptied. -/
def decaylessEnv : Nat → List StreamingQuery
  | 0 => [⟨"job-A", []⟩]
  | _ + 1 => [⟨"job-A", List.range 1⟩]

/-- Claim C6, witness: from poll 1 on, the run is identical whether poll 0
showed 9 progress reports or none — the 9 is not cached anywhere. -/
theorem c6_witness :
    runFrom decayEnv "job-A" 7 5 1 = runFrom decaylessEnv "job-A" 7 5 1 :=
  c6_latest_snapshot_only decayEnv decaylessEnv "job-A" 7 5 1
    (fun j hj => by
      cases j with
      | zero => omega
      | succ n => rfl)

/-- Claim C7: every sleep in the trace of a successful run lasts exactly 5
time units — a fixed interval, with no back-off and no jitter. -/
theorem c7_fixed_sleep_interval (env : Nat → List StreamingQuery) (name : String)
    (p : Int) (fuel : Nat) (events : List WaitEvent) (n : Nat)
    (h : until_stream_is_ready env name p fuel = some events)
    (hn : WaitEvent.sleep n ∈ events) : n = 5 := by
  have h' : runFrom env name p fuel 0 = some events := h
  obtain ⟨j, -, -, -, -, hev⟩ := (runFrom_eq_some_iff env name p fuel 0 events).mp h'
  subst hev
  rcases List.mem_append.mp hn with hmem | hmem
  · have heq := List.eq_of_mem_replicate hmem
    injection heq
  · simp at hmem

/-- A trace whose "job-A" log length at poll `j` is `j`. -/
def delayEnv : Nat → List StreamingQuery :=
  fun j => [⟨"job-A", List.range j⟩]

/-- The trace of the run over `delayEnv` with threshold 3: three sleeps,
then the confirmation line. -/
def delayTrace : List WaitEvent :=
  List.replicate 3 (WaitEvent.sleep 5) ++ [WaitEvent.emit (readyMessage "job-A")]

/-- Claim C7, witness: a run that sleeps three times has every sleep equal
to 5 time units. -/
theorem c7_witness :
    until_stream_is_ready delayEnv "job-A" 3 4 = some delayTrace ∧ 5 = 5 :=
  ⟨by decide,
    c7_fixed_sleep_interval delayEnv "job-A" 3 4 delayTrace 5 (by decide) (by decide)⟩

/-- Claim C8: a call that leaves `progressions` to its default returns
exactly when a poll first shows the first matching job with at least 3
progress reports: the default threshold is 3. -/
theorem c8_default_threshold_is_three (env : Nat → List StreamingQuery)
    (name : String) (fuel : Nat) (events : List WaitEvent) :
    until_stream_is_ready_default env name fuel = some events ↔
      ∃ j, j < fuel ∧
        (∃ q qs, filteredQueries name (env j) = q :: qs ∧
          (3 : Int) ≤ (q.recentProgress.length : Int)) ∧
        (∀ i, i < j →
          filteredQueries name (env i) = [] ∨
            ∃ q qs, filteredQueries name (env i) = q :: qs ∧
              (q.recentProgress.length : Int) < 3) ∧
        events = List.replicate j (WaitEvent.sleep 5) ++
          [WaitEvent.emit (readyMessage name)] := by
  unfold until_stream_is_ready_default until_stream_is_ready
  exact runFrom_zero_iff_first_match env name 3 fuel events

/-- `emittedLines` distributes over trace concatenation. -/
theorem emittedLines_append (a b : List WaitEvent) :
    emittedLines (a ++ b) = emittedLines a ++ emittedLines b := by
  unfold emittedLines
  exact List.filterMap_append a b _

/-- Sleeping prints nothing. -/
theorem emittedLines_replicate_sleep (n s : Nat) :
    emittedLines (List.replicate n (WaitEvent.sleep s)) = [] := by
  induction n with
  | zero => rfl
  | succ n ih => rw [List.replicate_succ]; simp [emittedLines, ih]

/-- Claim C9: a successful run prints exactly one line, the confirmation
message, which names the job; everything before it in the trace is a sleep,
so nothing is printed while waiting, and the run's only outcome beyond its
events is successful completion. -/
theorem c9_single_confirmation (env : Nat → List StreamingQuery) (name : String)
    (p : Int) (fuel : Nat) (events : List WaitEvent)
    (h : until_stream_is_ready env name p fuel = some events) :
    emittedLines events = [readyMessage name] ∧
      (∃ k, events = List.replicate k (WaitEvent.sleep 5) ++
        [WaitEvent.emit (readyMessage name)]) ∧
      ∃ s t, readyMessage name = s ++ name ++ t := by
  have h' : runFrom env name p fuel 0 = some events := h
  obtain ⟨j, -, -, -, -, hev⟩ := (runFrom_eq_some_iff env name p fuel 0 events).mp h'
  subst hev
  refine ⟨?_, ⟨j, by simp⟩, "The stream ", " is active and ready.", rfl⟩
  rw [emittedLines_append, emittedLines_replicate_sleep]
  rfl

/-- Claim C9, witness: the immediate-return run prints exactly the one
confirmation line, which contains the job name. -/
theorem c9_witness :
    emittedLines [WaitEvent.emit (readyMessage "job-A")] = [readyMessage "job-A"] ∧
      (∃ k, [WaitEvent.emit (readyMessage "job-A")] =
        List.replicate k (WaitEvent.sleep 5) ++ [WaitEvent.emit (readyMessage "job-A")]) ∧
      ∃ s t, readyMessage "job-A" = s ++ "job-A" ++ t :=
  c9_single_confirmation readyEnv "job-A" 3 1
    [WaitEvent.emit (readyMessage "job-A")] (by decide)

/-- Claim C10: with a non-positive threshold the presence check still
gates the return — the call returns exactly at the first poll whose
filtered set is nonempty, whatever the counts, and blocks while the name
is absent. -/
theorem c10_nonpositive_threshold (env : Nat → List StreamingQuery) (name : String)
    (p : Int) (fuel : Nat) (events : List WaitEvent) (hp : p ≤ 0) :
    until_stream_is_ready env name p fuel = some events ↔
      ∃ j, j < fuel ∧ filteredQueries name (env j) ≠ [] ∧
        (∀ i, i < j → filteredQueries name (env i) = []) ∧
        events = List.replicate j (WaitEvent.sleep 5) ++
          [WaitEvent.emit (readyMessage name)] := by
  have hfalse : ∀ s : List StreamingQuery,
      loopContinues name p s = false ↔ filteredQueries name s ≠ [] := by
    intro s
    rw [loopContinues_eq_false_iff]
    cases hs : filteredQueries name s with
    | nil => simp
    | cons q qs =>
      simp only [ne_eq, reduceCtorEq, not_false_eq_true, iff_true]
      exact ⟨q, qs, rfl, le_trans hp (Int.natCast_nonneg _)⟩
  have htrue : ∀ s : List StreamingQuery,
      loopContinues name p s = true ↔ filteredQueries name s = [] := by
    intro s
    rw [loopContinues_eq_true_iff]
    constructor
    · rintro (hnil | ⟨q, qs, -, hlt⟩)
      · exact hnil
      · have hpos := Int.natCast_nonneg q.recentProgress.length
        omega
    · intro hnil
      exact Or.inl hnil
  unfold until_stream_is_ready
  rw [runFrom_eq_some_iff]
  constructor
  · rintro ⟨j, -, hj2, hj3, hj4, hj5⟩
    refine ⟨j, by omega, (hfalse (env j)).mp hj3, ?_, by simpa using hj5⟩
    intro i hi
    exact (htrue (env i)).mp (hj4 i (Nat.zero_le i) hi)
  · rintro ⟨j, hj1, hj2, hj3, hj4⟩
    exact ⟨j, Nat.zero_le j, by omega, (hfalse (env j)).mpr hj2,
      fun i _ hi => (htrue (env i)).mpr (hj3 i hi), by simpa using hj4⟩

/-- A trace in which "job-A" first appears, with an empty progress log, at
poll 2. -/
def lateEnv : Nat → List StreamingQuery
  | 0 => []
  | 1 => []
  | _ + 2 => [⟨"job-A", []⟩]

/-- Claim C10, witness: with threshold 0 the call still waits for "job-A"
to appear and then returns at once, at poll 2, despite the empty log. -/
theorem c10_witness :
    until_stream_is_ready lateEnv "job-A" 0 3 =
      some (List.replicate 2 (WaitEvent.sleep 5) ++
        [WaitEvent.emit (readyMessage "job-A")]) := by
  refine (c10_nonpositive_threshold lateEnv "job-A" 0 3
    (List.replicate 2 (WaitEvent.sleep 5) ++ [WaitEvent.emit (readyMessage "job-A")])
    (le_refl 0)).mpr ⟨2, by omega, by decide, ?_, rfl⟩
  intro i hi
  interval_cases i
  · decide
  · decide
